import Mathlib

/-!
Shallow embedding of the jim crawler repository (src/server.py and
src/crawl_site.py) and proofs about the claims of its specification.

Conventions of the embedding:
* Python dict entries such as tasks[task_id] = {"status": ..., "result": ...}
  become a Task structure with Option fields; an absent key is none.
* The external crawl4ai renderer (crawler.arun) is modelled as an oracle
  argument; an exception raised by it is one of its outcome constructors.
* uuid.uuid4(), an external capability producing fresh identifiers, is
  modelled as a fresh-identifier supply: a nextId counter in the server state.
* Floating point fields of CrawlRequest (filter_threshold) play no role in
  any claim and are not modelled.
-/

namespace Jim

/-! ## Data model: task table entries (server.py lines 137-138, 229-259) -/

/-- Statuses appearing in the task state machine of the spec.  The source only
ever writes the strings "pending", "completed" and "failed"; running is
listed because the spec names it. -/
inductive TaskStatus where
  | pending
  | running
  | completed
  | failed
deriving DecidableEq, Repr

/-- The "result" dict stored on success by process_crawl (server.py lines
230-244), restricted to the fields the claims mention.  raw_markdown and
fit_markdown are None when the render result lacks markdown_v2. -/
structure ServerResult where
  url : String
  raw_markdown : Option String
  fit_markdown : Option String
deriving DecidableEq, Repr

/-- One entry of the global tasks dict.  result/error are none when the
corresponding key is absent (or, for result at submission, stored as None). -/
structure Task where
  status : TaskStatus
  result : Option ServerResult
  error : Option String
deriving DecidableEq, Repr

/-- The entry written at submission: {"status": "pending", "result": None}
(server.py line 138). -/
def pendingTask : Task := { status := .pending, result := none, error := none }

/-! ## CrawlRequest (server.py lines 52-62) -/

/-- urls: Union[str, List[str]]. -/
inductive Urls where
  | single (u : String)
  | many (us : List String)
deriving DecidableEq, Repr

/-- The request body, restricted to fields the claims mention. -/
structure CrawlRequest where
  urls : Urls
  priority : Int := 1
  use_llm : Bool := false
  search_query : Option String := none
  extract_json : Bool := true
  content_filter : String := "pruning"
  wait_for : String := "domcontentloaded"
  page_timeout : Int := 30000
deriving DecidableEq, Repr

/-- Pydantic field validation for page_timeout: Field(ge=1000, le=60000)
(server.py line 62).  A submission with a page_timeout outside this range is
rejected before the handler runs. -/
def validPageTimeout (t : Int) : Bool :=
  1000 ≤ t && t ≤ 60000

/-- Pydantic validation of the whole request: priority ge=1 le=10 (line 54)
and page_timeout ge=1000 le=60000 (line 62).  All other fields are
unconstrained. -/
def validRequest (r : CrawlRequest) : Bool :=
  (1 ≤ r.priority && r.priority ≤ 10) && validPageTimeout r.page_timeout

/-! ## Auth (server.py lines 69-73) -/

/-- verify_token: returns True when no API token is configured, otherwise
compares the presented bearer credentials with the configured secret.  Note
that it returns a Bool and raises nothing. -/
def verify_token (api_token : Option String) (credentials : String) : Bool :=
  match api_token with
  | none => true
  | some t => credentials == t

/-! ## Server state and endpoints -/

/-- Errors raised with HTTPException by the endpoints. -/
inductive HTTPError where
  | badRequest (detail : String)
  | notFound (detail : String)
deriving DecidableEq, Repr

/-- Global server state: the tasks dict (keyed by modelled task ids), the
set of background jobs spawned with asyncio.create_task and not yet run
(each remembering the request it closes over), and the fresh-id counter
modelling uuid4. -/
structure ServerState where
  tasks : List (Nat × Task)
  queue : List (Nat × CrawlRequest)
  nextId : Nat
deriving Repr

/-- State at process start: empty tasks dict, nothing queued. -/
def initState : ServerState := { tasks := [], queue := [], nextId := 0 }

/-- Dictionary lookup tasks.get(id). -/
def lookupTask : List (Nat × Task) → Nat → Option Task
  | [], _ => none
  | p :: ps, id => if p.1 = id then some p.2 else lookupTask ps id

/-- Dictionary assignment tasks[id] = t: replaces the binding when the key
exists, inserts it otherwise. -/
def setTask : List (Nat × Task) → Nat → Task → List (Nat × Task)
  | [], id, t => [(id, t)]
  | p :: ps, id, t => if p.1 = id then (id, t) :: ps else p :: setTask ps id t

/-- The POST /crawl handler (server.py lines 125-143).  The token argument
is the value FastAPI injects from Depends(verify_token); the handler body
never reads it, exactly as in the source.  On use_llm it raises 400 before
touching any state; otherwise it allocates a fresh task id, stores a pending
task, spawns process_crawl in the background (modelled by enqueueing the
job) and returns the id. -/
def crawl (token : Bool) (request : CrawlRequest) (st : ServerState) :
    Except HTTPError Nat × ServerState :=
  if request.use_llm then
    (.error (.badRequest "LLM support is currently disabled"), st)
  else
    let task_id := st.nextId
    (.ok task_id,
      { tasks := (task_id, pendingTask) :: st.tasks,
        queue := st.queue ++ [(task_id, request)],
        nextId := st.nextId + 1 })

/-- The GET /task/{task_id} handler (server.py lines 145-156).  The token
argument is again injected and ignored.  Unknown ids raise 404. -/
def get_task_status (token : Bool) (task_id : Nat) (st : ServerState) :
    Except HTTPError Task :=
  match lookupTask st.tasks task_id with
  | none => .error (.notFound "Task not found")
  | some t => .ok t

/-! ## The worker: process_crawl (server.py lines 158-259) -/

/-- Line 162: url = request.urls if isinstance(request.urls, str) else
request.urls[0].  Indexing an empty list raises
IndexError("list index out of range"), which the surrounding except block
catches. -/
def first_url : Urls → Except String String
  | .single u => .ok u
  | .many [] => .error "list index out of range"
  | .many (u :: _) => .ok u

/-- Line 165: page_timeout = min(request.page_timeout, 30000). -/
def effective_page_timeout (t : Int) : Int :=
  min t 30000

/-- Outcome of awaiting crawler.arun, the external renderer: either an
exception escaping the await (caught by the except block of the worker), or a
CrawlResult object with its success flag, error_message and markdown
payload. -/
inductive RenderOut where
  | exn (message : String)
  | result (success : Bool) (error_message : String)
      (raw_markdown : Option String) (fit_markdown : Option String)
deriving DecidableEq, Repr

/-- The terminal task entry process_crawl assigns for its task: completed
with the result dict when result.success (lines 229-244), failed with the
error_message of the renderer when not (lines 246-252), failed with str(e) when
an exception was raised anywhere in the try block (lines 254-259). -/
def process_crawl (request : CrawlRequest)
    (render : String → Int → RenderOut) : Task :=
  match first_url request.urls with
  | .error e => { status := .failed, result := none, error := some e }
  | .ok url =>
    match render url (effective_page_timeout request.page_timeout) with
    | .exn msg => { status := .failed, result := none, error := some msg }
    | .result true _ raw fit =>
      { status := .completed,
        result := some { url := url, raw_markdown := raw, fit_markdown := fit },
        error := none }
    | .result false em _ _ =>
      { status := .failed, result := none, error := some em }

/-- The sequence of assignments to the tasks dict that one run of
process_crawl performs, in program order.  The only such assignments in the
source are the three terminal ones at lines 230, 249 and 256, exactly one
of which executes. -/
def process_crawl_writes (task_id : Nat) (request : CrawlRequest)
    (render : String → Int → RenderOut) : List (Nat × Task) :=
  [(task_id, process_crawl request render)]

/-- Statuses of a task observable through get_task_status during its
lifetime: pending from submission (line 138) until the single
write, then the status of each successive write. -/
def observed_statuses (task_id : Nat) (request : CrawlRequest)
    (render : String → Int → RenderOut) : List TaskStatus :=
  TaskStatus.pending ::
    (process_crawl_writes task_id request render).map (fun w => w.2.status)

/-! ## String predicates

The Python functions str.endswith, str.lower and the containment test "pat in s" are
modelled directly on the character lists underlying Lean strings, so that
they evaluate inside the kernel. -/

/-- Does the first list start with the second list as a prefix? -/
def startsWithL : List Char → List Char → Bool
  | [], _ => true
  | _ :: _, [] => false
  | a :: as, b :: bs => a == b && startsWithL as bs

/-- Python "pat in s": pat occurs as a contiguous substring of s. -/
def containsL (pat : List Char) : List Char → Bool
  | [] => startsWithL pat []
  | c :: rest => startsWithL pat (c :: rest) || containsL pat rest

/-- Python s.endswith(pat). -/
def endsWithL (pat s : List Char) : Bool :=
  startsWithL pat.reverse s.reverse

/-- Python s.lower(), character by character. -/
def lowerL (s : List Char) : List Char :=
  s.map Char.toLower

/-- Python loc.endswith(".xml") (crawl_site.py lines 86, 88). -/
def endsWithXml (e : String) : Bool :=
  endsWithL ".xml".data e.data

/-- Python "timeout" in str(result).lower() (crawl_site.py line 238). -/
def timeoutInLower (msg : String) : Bool :=
  containsL "timeout".data (lowerL msg.data)

/-! ## Sitemap resolver (crawl_site.py lines 60-108)

get_sitemap_urls tries candidate sitemap locations in order; the claims
concern the treatment of a single candidate whose parsed loc entries are
given, so the per-candidate logic of lines 83-98 is embedded with the
entries as input and the sub-sitemap fetches as an oracle (none models a
fetch or parse failure, which the inner except block swallows). -/

/-- Per-candidate URL collection (crawl_site.py lines 83-98).  The urls
variable is a Python set, modelled as a Finset.  If any loc entry ends in
.xml, the candidate is treated as a sitemap index: each .xml entry is
fetched and the loc values of its body are unioned in, non-.xml entries
are skipped; otherwise all entries are taken as leaf URLs. -/
def get_sitemap_urls (entries : List String)
    (fetchSub : String → Option (List String)) : Finset String :=
  if entries.any endsWithXml then
    entries.foldl
      (fun acc e =>
        if endsWithXml e then
          match fetchSub e with
          | some locs => acc ∪ locs.toFinset
          | none => acc
        else acc)
      ∅
  else
    entries.toFinset

/-! ## Batch crawl coordinator (crawl_site.py lines 110-284) -/

/-- Recursion worker for batches below.  The first argument is structural
fuel; with fuel ≥ length of the list it realises the recurrence
batchesF (u :: us) (k+1) = (u :: us).take (k+1) :: batchesF (us.drop k) (k+1),
see the batches_cons lemma. -/
def batchesF : Nat → List String → Nat → List (List String)
  | _, _, 0 => []
  | 0, _, _ + 1 => []
  | _, [], _ + 1 => []
  | fuel + 1, u :: us, k + 1 =>
      ((u :: us).take (k + 1)) :: batchesF fuel (us.drop k) (k + 1)

/-- The batching loop header (crawl_site.py line 219):
for i in range(0, len(urls), max_concurrent): batch = urls[i:i+max_concurrent].
With step 0 the Python range raises ValueError, so the k = 0 case is
unreachable for the claims, which assume k ≥ 1.  Defined through batchesF
with fuel = length so that it is structurally recursive; the slicing
recurrence is recovered by the lemmas batches_nil and batches_cons. -/
def batches (urls : List String) (k : Nat) : List (List String) :=
  batchesF urls.length urls k

/-- One record of the batch_results list (crawl_site.py lines 254-263),
restricted to the fields the claims mention.  The source never puts an
"error" key into this dict, hence the Option field. -/
structure Record where
  url : String
  raw_markdown : String
  fit_markdown : String
  error : Option String
deriving DecidableEq, Repr

/-- One settled element of await asyncio.gather(*tasks, return_exceptions=True)
(crawl_site.py line 233): either an exception object, or a CrawlResult with
its success flag, error_message and markdown payload. -/
inductive Settled where
  | exn (message : String)
  | page (success : Bool) (error_message : String)
      (raw_markdown : String) (fit_markdown : String)
deriving DecidableEq, Repr

/-- Per-batch counters (crawl_site.py lines 210-215). -/
structure BatchStats where
  success : Nat := 0
  failed : Nat := 0
  timeout : Nat := 0
  error : Nat := 0
deriving DecidableEq, Repr

/-- The processing of one (url, result) pair of a settled batch
(crawl_site.py lines 235-273): an exception increments timeout when its
lowered text contains "timeout" and error otherwise; result.success builds
the result dict, appends it to batch_results and increments success;
otherwise failed is incremented.  The attribute reads inside the success
branch (lines 246-263) are all total, so its defensive except arm (lines
268-270) is unreachable in this model. -/
def processItem (acc : BatchStats × List Record) (url : String) (s : Settled) :
    BatchStats × List Record :=
  match s with
  | .exn msg =>
    if timeoutInLower msg then
      ({ acc.1 with timeout := acc.1.timeout + 1 }, acc.2)
    else
      ({ acc.1 with error := acc.1.error + 1 }, acc.2)
  | .page true _ raw fit =>
    ({ acc.1 with success := acc.1.success + 1 },
     acc.2 ++ [{ url := url, raw_markdown := raw, fit_markdown := fit, error := none }])
  | .page false _ _ _ =>
    ({ acc.1 with failed := acc.1.failed + 1 }, acc.2)

/-! ## Result sink (crawl_site.py lines 117-157) -/

/-- Contents of the two line-delimited logs of one run directory:
results.jsonl and errors.jsonl, each as the list of appended records. -/
structure SinkState where
  resultsLog : List Record
  errorsLog : List Record
deriving DecidableEq, Repr

/-- save_batch_results (crawl_site.py lines 117-157): for every record of
the passed list, one line is appended to results.jsonl (lines 147-148);
additionally, for every record carrying an "error" key, one line is
appended to errors.jsonl (lines 150-157).  Returned are the lines appended
to each log. -/
def save_batch_results (results : List Record) : List Record × List Record :=
  (results, results.filter (fun r => r.error.isSome))

/-- The loop over zip(batch, results) (crawl_site.py lines 235-273):
process each (url, settled outcome) pair of the batch in order against the
running stats and batch_results accumulator. -/
def stepItems (run : String → Settled) (init : BatchStats × List Record)
    (batch : List String) : BatchStats × List Record :=
  batch.foldl (fun a url => processItem a url (run url)) init

/-- The body of the batch loop (crawl_site.py lines 219-279): settle the
whole batch (one outcome per URL via the run oracle), process each
(url, result) pair against the running stats while collecting success
records into batch_results, then flush batch_results (when nonempty)
through save_batch_results into the logs. -/
def runBatch (run : String → Settled) (acc : BatchStats × SinkState)
    (batch : List String) : BatchStats × SinkState :=
  let step := stepItems run (acc.1, ([] : List Record)) batch
  let logs :=
    if step.2.isEmpty then acc.2
    else
      let saved := save_batch_results step.2
      { resultsLog := acc.2.resultsLog ++ saved.1,
        errorsLog := acc.2.errorsLog ++ saved.2 }
  (step.1, logs)

/-- crawl_parallel (crawl_site.py lines 159-284) over its per-URL render
outcomes: processes the URLs batch by batch through runBatch, starting
from zeroed stats and empty logs.  Returns the final stats and the final
log contents. -/
def crawl_parallel (urls : List String) (run : String → Settled)
    (max_concurrent : Nat) : BatchStats × SinkState :=
  (batches urls max_concurrent).foldl (runBatch run)
    (({} : BatchStats), { resultsLog := [], errorsLog := [] })

/-- Total of the four outcome counters. -/
def BatchStats.total (s : BatchStats) : Nat :=
  s.success + s.failed + s.timeout + s.error

/-! ## Task-table transition system

Submissions, background workers and status queries are the only code that
touches the tasks dict.  Their interleavings are modelled by a step
relation on the server state; the single-threaded asyncio event loop makes
each dict assignment atomic. -/

/-- Well-formedness of a stored task entry: a non-null result is stored
exactly by the completed assignment (server.py lines 230-244), an error
exactly by the failed assignments (lines 249-252 and 256-259). -/
def taskShape (t : Task) : Prop :=
  (t.result.isSome ↔ t.status = .completed) ∧ (t.error.isSome ↔ t.status = .failed)

/-- One atomic operation on the server state: a submission (POST /crawl,
accepted or rejected), the completion of one spawned process_crawl
coroutine with some render outcome, or a status query (GET /task/{id},
which reads but never writes). -/
inductive Step : ServerState → ServerState → Prop where
  | submit (tok : Bool) (req : CrawlRequest) (st : ServerState) :
      Step st (crawl tok req st).2
  | work (st : ServerState) (id : Nat) (req : CrawlRequest)
      (render : String → Int → RenderOut) (h : (id, req) ∈ st.queue) :
      Step st
        { tasks := setTask st.tasks id (process_crawl req render),
          queue := st.queue.erase (id, req),
          nextId := st.nextId }
  | query (st : ServerState) : Step st st

/-- States reachable from process start. -/
inductive Reachable : ServerState → Prop where
  | init : Reachable initState
  | step {s s' : ServerState} : Reachable s → Step s s' → Reachable s'

/-- The inductive invariant of the transition system: task keys are below
the fresh-id counter and duplicate free, every stored entry is well
shaped, and every queued job belongs to a task that is still pending. -/
structure Inv (st : ServerState) : Prop where
  keysLt : ∀ p ∈ st.tasks, p.1 < st.nextId
  keysNodup : (st.tasks.map Prod.fst).Nodup
  shapes : ∀ p ∈ st.tasks, taskShape p.2
  queueLt : ∀ q ∈ st.queue, q.1 < st.nextId
  queueNodup : (st.queue.map Prod.fst).Nodup
  queuePending : ∀ q ∈ st.queue, lookupTask st.tasks q.1 = some pendingTask

/-! ## Concrete inputs used by witnesses and counterexamples -/

/-- A plain single-URL submission, as in src/je.py. -/
def simpleRequest : CrawlRequest :=
  { urls := .single "https://example.com" }

/-- A submission whose page_timeout is below the pydantic lower bound. -/
def lowTimeoutRequest : CrawlRequest :=
  { urls := .single "https://example.com", page_timeout := 500 }

/-- A render oracle that always succeeds with some markdown. -/
def renderOk : String → Int → RenderOut :=
  fun _ _ => .result true "" (some "# Page") (some "# Page")

/-- Sitemap-index entries of a candidate file: one sub-sitemap reference
and one co-located leaf URL. -/
def exampleEntries : List String :=
  ["https://site.example/posts.xml", "https://site.example/about"]

/-- Sub-sitemap fetch oracle for exampleEntries. -/
def exampleFetch : String → Option (List String) :=
  fun e =>
    if e = "https://site.example/posts.xml" then
      some ["https://site.example/p1", "https://site.example/p2"]
    else none

/-- Three URLs for a concrete batch run. -/
def exampleUrls : List String :=
  ["https://site.example/a", "https://site.example/b", "https://site.example/c"]

/-- Per-URL outcomes for exampleUrls: one success, one page timeout, one
other exception. -/
def exampleRun : String → Settled :=
  fun u =>
    if u = "https://site.example/a" then .page true "" "# A" "A"
    else if u = "https://site.example/b" then
      .exn "Page.goto: Timeout 30000ms exceeded."
    else .exn "net::ERR_CONNECTION_REFUSED"

/-- Two URLs of which the second fails with result.success False. -/
def mixedUrls : List String :=
  ["https://site.example/ok", "https://site.example/bad"]

/-- Outcomes for mixedUrls: one success record, one explicit failure. -/
def mixedRun : String → Settled :=
  fun u =>
    if u = "https://site.example/ok" then .page true "" "# OK" "OK"
    else .page false "net::ERR_NAME_NOT_RESOLVED" "" ""

/-! ## Lemmas about the task dictionary -/

@[simp]
theorem lookupTask_nil (n : Nat) : lookupTask [] n = none := rfl

@[simp]
theorem lookupTask_cons (p : Nat × Task) (ps : List (Nat × Task)) (n : Nat) :
    lookupTask (p :: ps) n = if p.1 = n then some p.2 else lookupTask ps n := rfl

theorem lookupTask_none_of_lt {ts : List (Nat × Task)} {n : Nat}
    (h : ∀ p ∈ ts, p.1 < n) : lookupTask ts n = none := by
  induction ts with
  | nil => rfl
  | cons p ps ih =>
    have hp : p.1 < n := h p (List.mem_cons_self _ _)
    simp only [lookupTask_cons, if_neg (Nat.ne_of_lt hp)]
    exact ih fun q hq => h q (List.mem_cons_of_mem _ hq)

theorem mem_of_lookupTask {ts : List (Nat × Task)} {id : Nat} {t : Task}
    (h : lookupTask ts id = some t) : (id, t) ∈ ts := by
  induction ts with
  | nil => simp at h
  | cons p ps ih =>
    obtain ⟨a, b⟩ := p
    by_cases hid : a = id
    · subst hid
      simp only [lookupTask_cons, if_pos rfl] at h
      obtain rfl : b = t := Option.some.inj h
      exact List.mem_cons_self _ _
    · simp only [lookupTask_cons, if_neg hid] at h
      exact List.mem_cons_of_mem _ (ih h)

theorem lookupTask_setTask_self (ts : List (Nat × Task)) (id : Nat) (t : Task) :
    lookupTask (setTask ts id t) id = some t := by
  induction ts with
  | nil => simp [setTask]
  | cons p ps ih =>
    by_cases hid : p.1 = id
    · simp [setTask, hid]
    · simp [setTask, hid, ih]

theorem lookupTask_setTask_ne {ts : List (Nat × Task)} {id j : Nat} (t : Task)
    (h : j ≠ id) : lookupTask (setTask ts id t) j = lookupTask ts j := by
  induction ts with
  | nil => simp [setTask, Ne.symm h]
  | cons p ps ih =>
    by_cases hid : p.1 = id
    · have hpj : p.1 ≠ j := by rw [hid]; exact Ne.symm h
      simp only [setTask, if_pos hid, lookupTask_cons, if_neg (Ne.symm h), if_neg hpj]
    · simp only [setTask, if_neg hid, lookupTask_cons, ih]

theorem map_fst_setTask {ts : List (Nat × Task)} {id : Nat} (t : Task)
    (h : (lookupTask ts id).isSome) :
    (setTask ts id t).map Prod.fst = ts.map Prod.fst := by
  induction ts with
  | nil => simp [lookupTask] at h
  | cons p ps ih =>
    by_cases hid : p.1 = id
    · simp [setTask, hid]
    · simp only [lookupTask_cons, if_neg hid] at h
      simp [setTask, hid, ih h]

theorem mem_setTask {ts : List (Nat × Task)} {id : Nat} {t : Task}
    {p : Nat × Task} (h : p ∈ setTask ts id t) : p = (id, t) ∨ p ∈ ts := by
  induction ts with
  | nil => simpa [setTask] using h
  | cons q qs ih =>
    by_cases hid : q.1 = id
    · simp only [setTask, if_pos hid, List.mem_cons] at h
      rcases h with h | h
      · exact Or.inl h
      · exact Or.inr (List.mem_cons_of_mem _ h)
    · simp only [setTask, if_neg hid, List.mem_cons] at h
      rcases h with h | h
      · exact Or.inr (h ▸ List.mem_cons_self _ _)
      · rcases ih h with h2 | h2
        · exact Or.inl h2
        · exact Or.inr (List.mem_cons_of_mem _ h2)

/-! ## Shape of task entries -/

theorem taskShape_pendingTask : taskShape pendingTask := by
  simp [taskShape, pendingTask]

theorem taskShape_process_crawl (req : CrawlRequest)
    (render : String → Int → RenderOut) :
    taskShape (process_crawl req render) := by
  unfold process_crawl
  split
  · simp [taskShape]
  · split <;> simp [taskShape]

theorem process_crawl_terminal (req : CrawlRequest)
    (render : String → Int → RenderOut) :
    (process_crawl req render).status = .completed ∨
      (process_crawl req render).status = .failed := by
  unfold process_crawl
  split
  · simp
  · split <;> simp

/-! ## The inductive invariant -/

theorem inv_init : Inv initState := by
  constructor <;> simp [initState]

theorem inv_step {s s' : ServerState} (hI : Inv s) (hS : Step s s') : Inv s' := by
  cases hS with
  | submit tok req st =>
    by_cases hllm : req.use_llm
    · simpa [crawl, hllm] using hI
    · simp only [crawl, hllm, if_false, Bool.false_eq_true]
      constructor
      · intro p hp
        rcases List.mem_cons.mp hp with rfl | hp
        · exact Nat.lt_succ_self _
        · exact Nat.lt_succ_of_lt (hI.keysLt p hp)
      · simp only [List.map_cons, List.nodup_cons]
        refine ⟨?_, hI.keysNodup⟩
        intro hmem
        rcases List.mem_map.mp hmem with ⟨p, hp, hfst⟩
        exact absurd (hfst ▸ hI.keysLt p hp) (Nat.lt_irrefl _)
      · intro p hp
        rcases List.mem_cons.mp hp with rfl | hp
        · exact taskShape_pendingTask
        · exact hI.shapes p hp
      · intro q hq
        rcases List.mem_append.mp hq with hq | hq
        · exact Nat.lt_succ_of_lt (hI.queueLt q hq)
        · simp only [List.mem_singleton] at hq
          subst hq
          exact Nat.lt_succ_self _
      · simp only [List.map_append, List.map_cons, List.map_nil]
        rw [List.nodup_append]
        refine ⟨hI.queueNodup, List.nodup_singleton _, ?_⟩
        intro a ha hb
        simp only [List.mem_singleton] at hb
        subst hb
        rcases List.mem_map.mp ha with ⟨q, hq, hfst⟩
        exact absurd (hfst ▸ hI.queueLt q hq) (Nat.lt_irrefl _)
      · intro q hq
        rcases List.mem_append.mp hq with hq | hq
        · have hlt := hI.queueLt q hq
          simp only [lookupTask_cons, if_neg (Nat.ne_of_gt hlt)]
          exact hI.queuePending q hq
        · simp only [List.mem_singleton] at hq
          subst hq
          simp
  | work st id req render h =>
    have hpend : lookupTask s.tasks id = some pendingTask := hI.queuePending _ h
    have hidlt : id < s.nextId := hI.queueLt _ h
    constructor
    · intro p hp
      rcases mem_setTask hp with rfl | hp
      · exact hidlt
      · exact hI.keysLt p hp
    · rw [map_fst_setTask _ (by simp [hpend])]
      exact hI.keysNodup
    · intro p hp
      rcases mem_setTask hp with rfl | hp
      · exact taskShape_process_crawl req render
      · exact hI.shapes p hp
    · intro q hq
      exact hI.queueLt q (List.mem_of_mem_erase hq)
    · exact hI.queueNodup.sublist (List.Sublist.map _ (List.erase_sublist _ _))
    · intro q hq
      have hqNodup : s.queue.Nodup := List.Nodup.of_map _ hI.queueNodup
      rcases (hqNodup.mem_erase_iff).mp hq with ⟨hne, hqmem⟩
      have hq1 : q.1 ≠ id := by
        intro heq
        exact hne (List.inj_on_of_nodup_map hI.queueNodup hqmem h heq)
      rw [lookupTask_setTask_ne _ hq1]
      exact hI.queuePending q hqmem
  | query st => exact hI

theorem reachable_inv {s : ServerState} (h : Reachable s) : Inv s := by
  induction h with
  | init => exact inv_init
  | step _ hstep ih => exact inv_step ih hstep

/-! ## Terminal statuses are preserved -/

theorem terminal_preserved_step {s s' : ServerState} (hI : Inv s) (hS : Step s s')
    {id : Nat} {t : Task} (hl : lookupTask s.tasks id = some t)
    (ht : t.status = .completed ∨ t.status = .failed) :
    lookupTask s'.tasks id = some t := by
  cases hS with
  | submit tok req st =>
    by_cases hllm : req.use_llm
    · simpa [crawl, hllm] using hl
    · have hidlt : id < s.nextId := hI.keysLt _ (mem_of_lookupTask hl)
      simp only [crawl, hllm, if_false, Bool.false_eq_true,
        lookupTask_cons, if_neg (Nat.ne_of_gt hidlt)]
      exact hl
  | work st id' req render h =>
    have hpend : lookupTask s.tasks id' = some pendingTask := hI.queuePending _ h
    have hne : id ≠ id' := by
      rintro rfl
      rw [hl] at hpend
      obtain rfl : t = pendingTask := Option.some.inj hpend
      rcases ht with ht | ht <;> simp [pendingTask] at ht
    rw [lookupTask_setTask_ne _ hne]
    exact hl
  | query st => exact hl

theorem reachable_of_steps {s s' : ServerState} (hR : Reachable s)
    (hs : Relation.ReflTransGen Step s s') : Reachable s' := by
  induction hs with
  | refl => exact hR
  | tail _ hstep ih => exact Reachable.step ih hstep

theorem terminal_preserved_steps {s s' : ServerState} (hR : Reachable s)
    (hs : Relation.ReflTransGen Step s s') {id : Nat} {t : Task}
    (hl : lookupTask s.tasks id = some t)
    (ht : t.status = .completed ∨ t.status = .failed) :
    lookupTask s'.tasks id = some t := by
  induction hs with
  | refl => exact hl
  | tail hsteps hstep ih =>
    exact terminal_preserved_step
      (reachable_inv (reachable_of_steps hR hsteps)) hstep ih ht

/-- C4: in every reachable state of the task table, each stored Task has a
non-null result iff its status is completed and an error iff its status is
failed; and once the status of a task is completed or failed, no sequence of
later operations (submissions, worker updates or status queries) ever
changes its stored entry again. -/
theorem task_invariant_and_terminal_monotone (st st' : ServerState)
    (hR : Reachable st) (hs : Relation.ReflTransGen Step st st') :
    (∀ p ∈ st.tasks,
        (p.2.result.isSome ↔ p.2.status = .completed) ∧
        (p.2.error.isSome ↔ p.2.status = .failed)) ∧
    (∀ id t, lookupTask st.tasks id = some t →
        t.status = .completed ∨ t.status = .failed →
        lookupTask st'.tasks id = some t) := by
  refine ⟨(reachable_inv hR).shapes, ?_⟩
  intro id t hl ht
  exact terminal_preserved_steps hR hs hl ht

/-- Witness for C4 at the state reached by one accepted submission,
with the empty sequence of further operations. -/
theorem task_invariant_and_terminal_monotone_witness :
    (∀ p ∈ ((crawl true simpleRequest initState).2).tasks,
        (p.2.result.isSome ↔ p.2.status = .completed) ∧
        (p.2.error.isSome ↔ p.2.status = .failed)) ∧
    (∀ id t,
        lookupTask ((crawl true simpleRequest initState).2).tasks id = some t →
        t.status = .completed ∨ t.status = .failed →
        lookupTask ((crawl true simpleRequest initState).2).tasks id = some t) :=
  task_invariant_and_terminal_monotone _ _
    (Reachable.step Reachable.init (Step.submit true simpleRequest initState))
    Relation.ReflTransGen.refl

/-- C1 (evaluation at the failing input): with the API token secret
configured as "jeremy", a request presenting the non-matching bearer token
"wrong" makes verify_token return false, yet the submit endpoint still
creates the task and returns its id, and the status endpoint still answers
the query; the boolean injected from the verify_token dependency is never
checked by either handler. -/
theorem auth_result_ignored :
    verify_token (some "jeremy") "wrong" = false ∧
    (crawl (verify_token (some "jeremy") "wrong") simpleRequest initState).1 =
      Except.ok 0 ∧
    lookupTask ((crawl (verify_token (some "jeremy") "wrong") simpleRequest
      initState).2).tasks 0 = some pendingTask ∧
    get_task_status (verify_token (some "jeremy") "wrong") 0
      ((crawl (verify_token (some "jeremy") "wrong") simpleRequest initState).2) =
      Except.ok pendingTask := by
  refine ⟨by decide, ?_, ?_, ?_⟩ <;> rfl

/-- C2: a submission with use_llm raises the 400 client error and leaves
the state unchanged, so no task is created; any other submission returns a
fresh task id under which no task was previously stored, stores a pending
task under it, and a status query made before the worker runs answers with
that pending task. -/
theorem submit_fresh_pending (tok : Bool) (req : CrawlRequest) (st : ServerState)
    (hfresh : ∀ p ∈ st.tasks, p.1 < st.nextId) :
    (req.use_llm = true →
      (crawl tok req st).1 =
        .error (.badRequest "LLM support is currently disabled") ∧
      (crawl tok req st).2 = st) ∧
    (req.use_llm = false →
      ∃ id, (crawl tok req st).1 = .ok id ∧
        lookupTask st.tasks id = none ∧
        lookupTask ((crawl tok req st).2).tasks id = some pendingTask ∧
        get_task_status tok id (crawl tok req st).2 = .ok pendingTask) := by
  constructor
  · intro hllm
    simp [crawl, hllm]
  · intro hllm
    refine ⟨st.nextId, ?_, lookupTask_none_of_lt hfresh, ?_, ?_⟩
    · simp [crawl, hllm]
    · simp [crawl, hllm]
    · simp [get_task_status, crawl, hllm]

/-- Witness for C2 at the initial state with a plain submission. -/
theorem submit_fresh_pending_witness :
    (∀ p ∈ initState.tasks, p.1 < initState.nextId) ∧
    (∃ id, (crawl true simpleRequest initState).1 = .ok id ∧
      lookupTask initState.tasks id = none ∧
      lookupTask ((crawl true simpleRequest initState).2).tasks id =
        some pendingTask ∧
      get_task_status true id (crawl true simpleRequest initState).2 =
        .ok pendingTask) :=
  ⟨by simp [initState],
   (submit_fresh_pending true simpleRequest initState (by simp [initState])).2 rfl⟩

/-- C3 (counterexample): for the concrete submission simpleRequest with a
successful render, the observable status sequence of the task is
[pending, completed]; it is observed in a terminal status although running
was never observable at any intermediate step, refuting the claim that the
worker sets its task to running before render and extraction. -/
theorem no_running_observed_counterexample :
    observed_statuses 0 simpleRequest renderOk = [.pending, .completed] ∧
    TaskStatus.running ∉ observed_statuses 0 simpleRequest renderOk := by
  refine ⟨rfl, by decide⟩

/-- C3 (amended): every task goes directly from pending to a terminal
status: one run of process_crawl performs exactly one write to the task
table, that write is terminal (completed or failed), and the status
running is never observable; the observable status sequence is pending
followed by the terminal status. -/
theorem direct_pending_to_terminal (task_id : Nat) (req : CrawlRequest)
    (render : String → Int → RenderOut) :
    (∃ t, process_crawl_writes task_id req render = [(task_id, t)] ∧
        (t.status = .completed ∨ t.status = .failed)) ∧
    TaskStatus.running ∉ observed_statuses task_id req render := by
  refine ⟨⟨process_crawl req render, rfl, process_crawl_terminal req render⟩, ?_⟩
  intro hmem
  simp only [observed_statuses, process_crawl_writes, List.map_cons, List.map_nil,
    List.mem_cons, List.not_mem_nil, or_false] at hmem
  rcases hmem with h | h
  · exact TaskStatus.noConfusion h
  · rcases process_crawl_terminal req render with ht | ht <;>
      rw [ht] at h <;> exact TaskStatus.noConfusion h

/-- C10: when urls is a list the worker crawls only its first element and
ignores the rest (process_crawl on a list headed by u equals process_crawl
on the single string u); and a submission whose urls is the empty list is
accepted with a task id, while its task terminates failed carrying the
index error text. -/
theorem urls_list_first_element_only (u : String) (rest : List String)
    (req : CrawlRequest) (render : String → Int → RenderOut)
    (tok : Bool) (st : ServerState) :
    process_crawl { req with urls := .many (u :: rest) } render =
      process_crawl { req with urls := .single u } render ∧
    (crawl tok { req with urls := .many [], use_llm := false } st).1 =
      .ok st.nextId ∧
    process_crawl { req with urls := .many [] } render =
      { status := .failed, result := none,
        error := some "list index out of range" } := by
  refine ⟨?_, ?_, ?_⟩
  · simp [process_crawl, first_url]
  · simp [crawl]
  · simp [process_crawl, first_url]

/-! ## Lemmas about batching -/

theorem batchesF_fuel_eq (k : Nat) :
    ∀ (f1 : Nat) (l : List String) (f2 : Nat), l.length ≤ f1 → l.length ≤ f2 →
      batchesF f1 l k = batchesF f2 l k := by
  intro f1
  induction f1 with
  | zero =>
    intro l f2 h1 h2
    obtain rfl : l = [] := List.eq_nil_of_length_eq_zero (Nat.le_zero.mp h1)
    cases k <;> cases f2 <;> rfl
  | succ a ih =>
    intro l f2 h1 h2
    cases k with
    | zero => cases f2 <;> cases l <;> rfl
    | succ k =>
      cases l with
      | nil => cases f2 <;> rfl
      | cons u us =>
        cases f2 with
        | zero => simp at h2
        | succ b =>
          simp only [List.length_cons] at h1 h2
          simp only [batchesF]
          congr 1
          apply ih (us.drop k) b
          · simp only [List.length_drop]
            omega
          · simp only [List.length_drop]
            omega

theorem batches_cons (u : String) (us : List String) (k : Nat) :
    batches (u :: us) (k + 1) =
      ((u :: us).take (k + 1)) :: batches (us.drop k) (k + 1) := by
  show batchesF (u :: us).length (u :: us) (k + 1) = _
  simp only [List.length_cons, batchesF]
  congr 1
  apply batchesF_fuel_eq (k + 1) us.length (us.drop k) (us.drop k).length
  · simp only [List.length_drop]
    omega
  · exact le_rfl

theorem batchesF_join (k : Nat) :
    ∀ (fuel : Nat) (l : List String), l.length ≤ fuel →
      (batchesF fuel l (k + 1)).flatten = l := by
  intro fuel
  induction fuel with
  | zero =>
    intro l h
    obtain rfl : l = [] := List.eq_nil_of_length_eq_zero (Nat.le_zero.mp h)
    rfl
  | succ a ih =>
    intro l h
    cases l with
    | nil => rfl
    | cons u us =>
      simp only [List.length_cons] at h
      simp only [batchesF, List.flatten_cons]
      rw [ih (us.drop k) (by simp only [List.length_drop]; omega)]
      simp [List.take_succ_cons, List.take_append_drop]

theorem batchesF_length (k : Nat) :
    ∀ (fuel : Nat) (l : List String), l.length ≤ fuel →
      (batchesF fuel l (k + 1)).length = (l.length + k) / (k + 1) := by
  intro fuel
  induction fuel with
  | zero =>
    intro l h
    obtain rfl : l = [] := List.eq_nil_of_length_eq_zero (Nat.le_zero.mp h)
    simp [batchesF, Nat.div_eq_of_lt (Nat.lt_succ_self k)]
  | succ a ih =>
    intro l h
    cases l with
    | nil => simp [batchesF, Nat.div_eq_of_lt (Nat.lt_succ_self k)]
    | cons u us =>
      simp only [List.length_cons] at h
      simp only [batchesF, List.length_cons]
      rw [ih (us.drop k) (by simp only [List.length_drop]; omega)]
      rw [List.length_drop]
      have h2 : us.length + 1 + k = us.length + (k + 1) := by omega
      rw [h2, Nat.add_div_right _ (Nat.succ_pos k)]
      congr 1
      by_cases hk : k ≤ us.length
      · rw [Nat.sub_add_cancel hk]
      · have h3 : us.length - k = 0 := by omega
        rw [h3, Nat.zero_add,
          Nat.div_eq_of_lt (by omega), Nat.div_eq_of_lt (by omega)]

theorem batchesF_batch_le (k : Nat) :
    ∀ (fuel : Nat) (l : List String) (b : List String),
      b ∈ batchesF fuel l (k + 1) → b.length ≤ k + 1 := by
  intro fuel
  induction fuel with
  | zero =>
    intro l b hb
    cases l <;> simp [batchesF] at hb
  | succ a ih =>
    intro l b hb
    cases l with
    | nil => simp [batchesF] at hb
    | cons u us =>
      simp only [batchesF, List.mem_cons] at hb
      rcases hb with rfl | hb
      · exact List.length_take_le (k + 1) (u :: us)
      · exact ih _ _ hb

/-! ## Lemmas about the stats counters -/

theorem processItem_total (acc : BatchStats × List Record) (url : String)
    (s : Settled) : (processItem acc url s).1.total = acc.1.total + 1 := by
  rcases s with msg | ⟨succ, em, raw, fit⟩
  · by_cases h : timeoutInLower msg <;>
      simp [processItem, h, BatchStats.total] <;> omega
  · cases succ <;> simp [processItem, BatchStats.total] <;> omega

theorem stepItems_nil (run : String → Settled) (init : BatchStats × List Record) :
    stepItems run init [] = init := rfl

theorem stepItems_cons (run : String → Settled) (init : BatchStats × List Record)
    (u : String) (us : List String) :
    stepItems run init (u :: us) =
      stepItems run (processItem init u (run u)) us := rfl

theorem stepItems_total (run : String → Settled) (batch : List String) :
    ∀ init : BatchStats × List Record,
      (stepItems run init batch).1.total = init.1.total + batch.length := by
  induction batch with
  | nil =>
    intro init
    simp [stepItems_nil]
  | cons u us ih =>
    intro init
    rw [stepItems_cons, ih, processItem_total]
    simp only [List.length_cons]
    omega

theorem runBatch_def (run : String → Settled) (acc : BatchStats × SinkState)
    (batch : List String) :
    runBatch run acc batch =
      ((stepItems run (acc.1, ([] : List Record)) batch).1,
       if (stepItems run (acc.1, ([] : List Record)) batch).2.isEmpty then acc.2
       else
         { resultsLog := acc.2.resultsLog ++
             (save_batch_results
               (stepItems run (acc.1, ([] : List Record)) batch).2).1,
           errorsLog := acc.2.errorsLog ++
             (save_batch_results
               (stepItems run (acc.1, ([] : List Record)) batch).2).2 }) := rfl

theorem runBatch_total (run : String → Settled) (acc : BatchStats × SinkState)
    (batch : List String) :
    (runBatch run acc batch).1.total = acc.1.total + batch.length := by
  rw [runBatch_def]
  exact stepItems_total run batch (acc.1, [])

theorem foldl_runBatch_total (run : String → Settled) (bs : List (List String)) :
    ∀ acc : BatchStats × SinkState,
      (bs.foldl (runBatch run) acc).1.total =
        acc.1.total + (bs.map List.length).sum := by
  induction bs with
  | nil =>
    intro acc
    simp
  | cons b bs ih =>
    intro acc
    simp only [List.foldl_cons, List.map_cons, List.sum_cons, ih, runBatch_total]
    omega

/-- C5: for any URL list and any concurrency bound K ≥ 1, the coordinator
partitions the URLs into exactly ceil(N/K) consecutive batches of at most
K URLs each (their concatenation is the input list), and the final stats
satisfy success + failed + timeout + error = N. -/
theorem batching_and_stats_sum (urls : List String) (run : String → Settled)
    (k : Nat) (hk : 1 ≤ k) :
    (batches urls k).length = (urls.length + k - 1) / k ∧
    (∀ b ∈ batches urls k, b.length ≤ k) ∧
    (batches urls k).flatten = urls ∧
    (crawl_parallel urls run k).1.success + (crawl_parallel urls run k).1.failed +
        (crawl_parallel urls run k).1.timeout +
        (crawl_parallel urls run k).1.error = urls.length := by
  obtain ⟨k, rfl⟩ : ∃ m, k = m + 1 := ⟨k - 1, by omega⟩
  refine ⟨?_, ?_, ?_, ?_⟩
  · have h1 : urls.length + (k + 1) - 1 = urls.length + k := by omega
    rw [h1]
    exact batchesF_length k urls.length urls le_rfl
  · intro b hb
    exact batchesF_batch_le k urls.length urls b hb
  · exact batchesF_join k urls.length urls le_rfl
  · have h2 := foldl_runBatch_total run (batches urls (k + 1))
      (({} : BatchStats), { resultsLog := [], errorsLog := [] })
    have h3 : ((batches urls (k + 1)).map List.length).sum = urls.length := by
      rw [← List.length_flatten]
      exact congrArg List.length (batchesF_join k urls.length urls le_rfl)
    have h4 : (crawl_parallel urls run (k + 1)).1.total = urls.length := by
      rw [crawl_parallel]
      rw [h2, h3]
      simp [BatchStats.total]
    simpa [BatchStats.total] using h4

/-- Witness for C5 at three concrete URLs with concurrency 2 and mixed
outcomes. -/
theorem batching_and_stats_sum_witness :
    1 ≤ 2 ∧
    ((batches exampleUrls 2).length = (exampleUrls.length + 2 - 1) / 2 ∧
     (∀ b ∈ batches exampleUrls 2, b.length ≤ 2) ∧
     (batches exampleUrls 2).flatten = exampleUrls ∧
     (crawl_parallel exampleUrls exampleRun 2).1.success +
        (crawl_parallel exampleUrls exampleRun 2).1.failed +
        (crawl_parallel exampleUrls exampleRun 2).1.timeout +
        (crawl_parallel exampleUrls exampleRun 2).1.error =
        exampleUrls.length) :=
  ⟨by decide, batching_and_stats_sum exampleUrls exampleRun 2 (by decide)⟩

/-- C6: crawl_parallel classifies each settled per-URL outcome into
exactly one of the four counters: an exception whose lowered message
contains "timeout" (the test the code uses for exceeding the page timeout)
increments timeout, any other exception increments error, a crawl result
with success False increments failed, and a crawl result with success True
increments success; in every case exactly one counter grows, by one. -/
theorem settled_outcome_classification (acc : BatchStats × List Record)
    (url : String) :
    (∀ msg, timeoutInLower msg = true →
      (processItem acc url (.exn msg)).1 =
        { acc.1 with timeout := acc.1.timeout + 1 }) ∧
    (∀ msg, timeoutInLower msg = false →
      (processItem acc url (.exn msg)).1 =
        { acc.1 with error := acc.1.error + 1 }) ∧
    (∀ em raw fit, (processItem acc url (.page false em raw fit)).1 =
      { acc.1 with failed := acc.1.failed + 1 }) ∧
    (∀ em raw fit, (processItem acc url (.page true em raw fit)).1 =
      { acc.1 with success := acc.1.success + 1 }) ∧
    (∀ s, (processItem acc url s).1.total = acc.1.total + 1) := by
  refine ⟨?_, ?_, ?_, ?_, ?_⟩
  · intro msg h
    simp [processItem, h]
  · intro msg h
    simp [processItem, h]
  · intro em raw fit
    simp [processItem]
  · intro em raw fit
    simp [processItem]
  · intro s
    exact processItem_total acc url s

/-- Witness for C6 at zeroed stats with a concrete page-timeout message. -/
theorem settled_outcome_classification_witness :
    timeoutInLower "Page.goto: Timeout 30000ms exceeded." = true ∧
    (processItem (({} : BatchStats), ([] : List Record)) "https://site.example/b"
        (.exn "Page.goto: Timeout 30000ms exceeded.")).1 =
      { ({} : BatchStats) with
          timeout := ({} : BatchStats).timeout + 1 } :=
  ⟨by decide,
   (settled_outcome_classification (({} : BatchStats), ([] : List Record))
      "https://site.example/b").1 "Page.goto: Timeout 30000ms exceeded."
      (by decide)⟩

/-! ## Lemmas about the sitemap resolver -/

theorem foldl_union_xml (fetchSub : String → Option (List String)) :
    ∀ (l : List String) (acc : Finset String),
      l.foldl
        (fun acc e =>
          if endsWithXml e then
            match fetchSub e with
            | some locs => acc ∪ locs.toFinset
            | none => acc
          else acc) acc =
      acc ∪ (((l.filter endsWithXml).map
        (fun e => (fetchSub e).getD [])).flatten).toFinset := by
  intro l
  induction l with
  | nil =>
    intro acc
    simp
  | cons e es ih =>
    intro acc
    by_cases hx : endsWithXml e
    · cases hf : fetchSub e with
      | none =>
        simp only [List.foldl_cons, hx, if_true, hf, ih,
          List.filter_cons_of_pos, List.map_cons, List.flatten_cons,
          Option.getD_none, List.nil_append]
      | some locs =>
        simp only [List.foldl_cons, hx, if_true, hf, ih,
          List.filter_cons_of_pos, List.map_cons, List.flatten_cons,
          Option.getD_some, List.toFinset_append, Finset.union_assoc]
    · simp only [List.foldl_cons, hx, if_false, Bool.false_eq_true, ih,
        List.filter_cons_of_neg, Bool.not_eq_true]
      rw [List.filter_cons_of_neg]
      simp [hx]

/-- C7: for a sitemap candidate with parsed loc entries: if at least one
entry ends in .xml, the returned set is the deduplicated union of the leaf
loc values fetched from the .xml entries, and non-.xml entries of that
file contribute nothing; if no entry ends in .xml, the returned set is
exactly the set of entries of the file. -/
theorem sitemap_index_union (entries : List String)
    (fetchSub : String → Option (List String)) :
    (entries.any endsWithXml = true →
      get_sitemap_urls entries fetchSub =
        (((entries.filter endsWithXml).map
            (fun e => (fetchSub e).getD [])).flatten).toFinset) ∧
    (entries.any endsWithXml = false →
      get_sitemap_urls entries fetchSub = entries.toFinset) := by
  constructor
  · intro h
    rw [get_sitemap_urls, if_pos h, foldl_union_xml]
    simp
  · intro h
    rw [get_sitemap_urls, if_neg ?_]
    simp [h]

/-- Witness for C7 on a candidate containing one sub-sitemap reference
and one co-located leaf URL. -/
theorem sitemap_index_union_witness :
    exampleEntries.any endsWithXml = true ∧
    get_sitemap_urls exampleEntries exampleFetch =
      (((exampleEntries.filter endsWithXml).map
          (fun e => (exampleFetch e).getD [])).flatten).toFinset :=
  ⟨by decide, (sitemap_index_union exampleEntries exampleFetch).1 (by decide)⟩

/-- C8 (counterexample): the submitted integer page_timeout 500 is not
accepted: pydantic field validation (ge=1000, server.py line 62) rejects
the request before any handler runs, so 500 is never clamped up to 1000,
refuting the claim that every submitted integer page_timeout is accepted
and clamped. -/
theorem low_page_timeout_rejected :
    validPageTimeout 500 = false ∧ validRequest lowTimeoutRequest = false := by
  exact ⟨by decide, by decide⟩

/-- C8 (amended): page_timeout values outside [1000, 60000] are rejected
by request validation; every accepted value t is used by the worker as
min(t, 30000): values with t ≤ 30000 are used unchanged, values above
30000 become 30000, and the effective value always lies in [1000, 30000]. -/
theorem page_timeout_validated_then_capped (t : Int) :
    (validPageTimeout t = true ↔ 1000 ≤ t ∧ t ≤ 60000) ∧
    (validPageTimeout t = true →
      effective_page_timeout t = min t 30000 ∧
      (t ≤ 30000 → effective_page_timeout t = t) ∧
      (30000 < t → effective_page_timeout t = 30000) ∧
      1000 ≤ effective_page_timeout t ∧ effective_page_timeout t ≤ 30000) := by
  constructor
  · simp [validPageTimeout]
  · intro hv
    rw [validPageTimeout] at hv
    simp only [Bool.and_eq_true, decide_eq_true_eq] at hv
    refine ⟨rfl, fun h => min_eq_left h, fun h => min_eq_right (le_of_lt h),
      ?_, min_le_right _ _⟩
    exact le_min hv.1 (by norm_num)

/-- Witness for C8 (amended) at the accepted value 45000, which is capped
to 30000. -/
theorem page_timeout_validated_then_capped_witness :
    validPageTimeout 45000 = true ∧
    (effective_page_timeout 45000 = min 45000 30000 ∧
      ((45000 : Int) ≤ 30000 → effective_page_timeout 45000 = 45000) ∧
      ((30000 : Int) < 45000 → effective_page_timeout 45000 = 30000) ∧
      (1000 : Int) ≤ effective_page_timeout 45000 ∧
      effective_page_timeout 45000 ≤ 30000) :=
  ⟨by decide, (page_timeout_validated_then_capped 45000).2 (by decide)⟩

/-! ## Lemmas about the result sink -/

theorem stepItems_error_none (run : String → Settled) (batch : List String) :
    ∀ init : BatchStats × List Record,
      (∀ r ∈ init.2, r.error = none) →
      ∀ r ∈ (stepItems run init batch).2, r.error = none := by
  induction batch with
  | nil =>
    intro init hinit r hr
    exact hinit r hr
  | cons u us ih =>
    intro init hinit r hr
    rw [stepItems_cons] at hr
    refine ih _ ?_ r hr
    rcases hs : run u with msg | ⟨succ, em, raw, fit⟩
    · by_cases htmo : timeoutInLower msg <;> simp only [hs, processItem, htmo] <;>
        simpa using hinit
    · cases succ
      · simpa only [hs, processItem] using hinit
      · simp only [hs, processItem]
        intro r2 hr2
        rcases List.mem_append.mp hr2 with h2 | h2
        · exact hinit r2 h2
        · simp only [List.mem_singleton] at h2
          subst h2
          rfl

theorem runBatch_errorsLog (run : String → Settled)
    (acc : BatchStats × SinkState) (batch : List String) :
    (runBatch run acc batch).2.errorsLog = acc.2.errorsLog := by
  have hnone := stepItems_error_none run batch (acc.1, []) (by simp)
  rw [runBatch_def]
  by_cases hemp : (stepItems run (acc.1, ([] : List Record)) batch).2.isEmpty
  · simp only [hemp, if_true]
  · simp only [hemp, if_false, Bool.false_eq_true, save_batch_results]
    have hfil : (stepItems run (acc.1, ([] : List Record)) batch).2.filter
        (fun r => r.error.isSome) = [] := by
      rw [List.filter_eq_nil_iff]
      intro r hr
      simp [hnone r hr]
    rw [hfil, List.append_nil]

theorem runBatch_resultsLog_length (run : String → Settled)
    (acc : BatchStats × SinkState) (batch : List String) :
    (runBatch run acc batch).2.resultsLog.length =
      acc.2.resultsLog.length +
        (stepItems run (acc.1, ([] : List Record)) batch).2.length := by
  rw [runBatch_def]
  by_cases hemp : (stepItems run (acc.1, ([] : List Record)) batch).2.isEmpty
  · simp only [hemp, if_true]
    rw [List.isEmpty_iff] at hemp
    rw [hemp]
    simp
  · simp only [hemp, if_false, Bool.false_eq_true, save_batch_results]
    simp

theorem stepItems_success_records (run : String → Settled) (batch : List String) :
    ∀ init : BatchStats × List Record,
      (stepItems run init batch).1.success + init.2.length =
        init.1.success + (stepItems run init batch).2.length := by
  induction batch with
  | nil =>
    intro init
    rw [stepItems_nil]
  | cons u us ih =>
    intro init
    rw [stepItems_cons]
    have hih := ih (processItem init u (run u))
    rcases hs : run u with msg | ⟨succ, em, raw, fit⟩
    · by_cases htmo : timeoutInLower msg <;>
        · rw [hs] at hih
          simp [processItem, htmo] at hih ⊢
          omega
    · cases succ
      · rw [hs] at hih
        simp only [processItem] at hih ⊢
        omega
      · rw [hs] at hih
        simp only [processItem, List.length_append, List.length_singleton] at hih ⊢
        omega

theorem runBatch_resultsLog_success (run : String → Settled)
    (acc : BatchStats × SinkState) (batch : List String) :
    (runBatch run acc batch).2.resultsLog.length + acc.1.success =
      acc.2.resultsLog.length + (runBatch run acc batch).1.success := by
  have h1 := runBatch_resultsLog_length run acc batch
  have h2 := stepItems_success_records run batch (acc.1, [])
  have h3 : (runBatch run acc batch).1 =
      (stepItems run (acc.1, ([] : List Record)) batch).1 := by
    rw [runBatch_def]
  rw [h1, h3]
  simp only [List.length_nil, Nat.add_zero] at h2
  omega

theorem foldl_runBatch_sink (run : String → Settled) (bs : List (List String)) :
    ∀ acc : BatchStats × SinkState,
      (bs.foldl (runBatch run) acc).2.errorsLog = acc.2.errorsLog ∧
      (bs.foldl (runBatch run) acc).2.resultsLog.length + acc.1.success =
        acc.2.resultsLog.length + (bs.foldl (runBatch run) acc).1.success := by
  induction bs with
  | nil =>
    intro acc
    exact ⟨rfl, rfl⟩
  | cons b bs ih =>
    intro acc
    obtain ⟨ih1, ih2⟩ := ih (runBatch run acc b)
    refine ⟨by rw [List.foldl_cons, ih1, runBatch_errorsLog], ?_⟩
    have h1 := runBatch_resultsLog_success run acc b
    rw [List.foldl_cons]
    omega

/-- C9 (the true half in general, and evaluation at the failing input):
for every run of the coordinator, the results log holds exactly one line
per successful item (its length equals the success counter, and only
success records are ever passed to the sink) while the errors log stays
empty; in particular on mixedUrls, whose second URL settles with success
False, the failed item is counted in stats but no line is ever appended to
the errors log, contradicting the claim that every failed item of the
batch is appended there as one JSON line. -/
theorem failed_items_missing_from_errors_log :
    (∀ urls run k,
      (crawl_parallel urls run k).2.resultsLog.length =
          (crawl_parallel urls run k).1.success ∧
      (crawl_parallel urls run k).2.errorsLog = []) ∧
    (crawl_parallel mixedUrls mixedRun 2).1.failed = 1 ∧
    (crawl_parallel mixedUrls mixedRun 2).1.success = 1 ∧
    (crawl_parallel mixedUrls mixedRun 2).2.resultsLog.length = 1 ∧
    (crawl_parallel mixedUrls mixedRun 2).2.errorsLog = [] := by
  refine ⟨?_, by decide, by decide, by decide, by decide⟩
  intro urls run k
  obtain ⟨h1, h2⟩ := foldl_runBatch_sink run (batches urls k)
    (({} : BatchStats), { resultsLog := [], errorsLog := [] })
  constructor
  · simp only [show (({} : BatchStats),
        ({ resultsLog := [], errorsLog := [] } : SinkState)).1.success = 0
        from rfl,
      show (({} : BatchStats),
        ({ resultsLog := [], errorsLog := [] } : SinkState)).2.resultsLog.length = 0
        from rfl] at h2
    rw [crawl_parallel]
    omega
  · rw [crawl_parallel]
    exact h1

end Jim
